import Mathlib

/-!
# Pong: ball, paddles and the CPU heuristic

A shallow embedding of `src/main.cpp`.

Numeric conventions of the embedding:
* `float` values are rationals (`ℚ`): arithmetic is exact, there is no rounding,
  no infinity and no NaN;
* `uint8_t` fields (radius, width, height) are `Fin 256`;
* the `int32_t` score counters are integers and `++` is `+ 1` (the counters stay far
  below `INT32_MAX` in play; signed overflow would be undefined behaviour in C++);
* the unqualified `abs` applied to a `float` is the absolute value;
* drawing (`draw`, `DrawText`, ...) has no effect on the state and is left out;
* what the raylib runtime hands to the program in a frame is an explicit argument:
  the frame time `GetFrameTime()`, the clock `GetTime()`, the key states
  `IsKeyDown(..)` and the raw output of the random generator behind `GetRandomValue`.
-/

namespace Pong

/-! ## Constants -/

def BallSpeed : ℚ := 420
def PaddleSpeed : ℚ := 360

def BallRadius : Fin 256 := 10
def PaddleHeight : Fin 256 := 120
def PaddleWidth : Fin 256 := 25

def ScreenWidth : Int := 1280
def ScreenHeight : Int := 800

/-! ## Data model -/

/-- The raylib `Vector2`: two floats. -/
structure Vector2 where
  x : ℚ
  y : ℚ
deriving DecidableEq

/-- The raylib `Rectangle`: top-left corner, width and height. -/
structure Rectangle where
  x : ℚ
  y : ℚ
  width : ℚ
  height : ℚ
deriving DecidableEq

/-- The two global counters `player_score` and `cpu_score`. -/
structure Scores where
  player_score : Int
  cpu_score : Int
deriving DecidableEq

/-- The state of a `Ball` (the colour plays no role in the dynamics). -/
structure Ball where
  m_position : Vector2
  m_speed : Vector2
  m_radius : Fin 256
deriving DecidableEq

/-- The state of a `Paddle`. -/
structure Paddle where
  m_position : Vector2
  m_speed : Vector2
  m_width : Fin 256
  m_height : Fin 256
deriving DecidableEq

/-- The state of a `CpuPaddle`: a `Paddle` with a target and the time of the last
reaction. The four tuning members of the class are private, initialised in the class
body and never assigned; they are the constants below. -/
structure CpuPaddle extends Paddle where
  m_target_y : ℚ
  m_last_reaction_time : ℚ
deriving DecidableEq

/-! ## raylib services used by the program -/

/-- The raylib `GetRandomValue(min, max)`: the raw output `raw` of the generator
folded into the closed range `[min, max]`. -/
def GetRandomValue (raw : Nat) (min max : Int) : Int :=
  ((raw % ((max - min).natAbs + 1) : Nat) : Int) + min

/-- Conversion of a `float` argument to `int` (truncation toward zero), as happens
when a float is passed to `GetRandomValue`. -/
def float_to_int (q : ℚ) : Int :=
  if 0 ≤ q then Int.floor q else Int.ceil q

/-! ## Ball -/

/-- The local array `speed_choices` of `Ball::reset`. -/
def speed_choices : List Int := [-1, 1]

/-- `Ball::reset`: recentre and multiply each velocity component by a random
element of `speed_choices`; `raw1`, `raw2` are the two draws. -/
def Ball.reset (raw1 raw2 : Nat) (b : Ball) : Ball :=
  let b1 : Ball := { b with
    m_position := ⟨(ScreenWidth : ℚ) / 2, (ScreenHeight : ℚ) / 2⟩ }
  let b2 : Ball := { b1 with
    m_speed := ⟨b1.m_speed.x * (speed_choices.getD (GetRandomValue raw1 0 1).toNat 0 : Int),
                b1.m_speed.y⟩ }
  { b2 with
    m_speed := ⟨b2.m_speed.x,
                b2.m_speed.y * (speed_choices.getD (GetRandomValue raw2 0 1).toNat 0 : Int)⟩ }

/-- `Ball::update` for a frame of duration `dt`, acting on the ball and on the two
global score counters. -/
def Ball.update (dt : ℚ) (raw1 raw2 : Nat) (b : Ball) (s : Scores) : Ball × Scores :=
  -- m_position.x += m_speed.x * GetFrameTime(); m_position.y += ...
  let b1 : Ball := { b with
    m_position := ⟨b.m_position.x + b.m_speed.x * dt, b.m_position.y + b.m_speed.y * dt⟩ }
  -- left / right edge: score and reset
  let bs2 : Ball × Scores :=
    if b1.m_position.x - (b1.m_radius.val : ℚ) ≤ 0 then
      (b1.reset raw1 raw2, { s with player_score := s.player_score + 1 })
    else if b1.m_position.x + (b1.m_radius.val : ℚ) ≥ (ScreenWidth : ℚ) then
      (b1.reset raw1 raw2, { s with cpu_score := s.cpu_score + 1 })
    else
      (b1, s)
  let b2 := bs2.1
  -- top / bottom edge: flip the vertical velocity
  let b3 : Ball :=
    if b2.m_position.y - (b2.m_radius.val : ℚ) ≤ 0 ∨
       b2.m_position.y + (b2.m_radius.val : ℚ) ≥ (ScreenHeight : ℚ) then
      { b2 with m_speed := ⟨b2.m_speed.x, b2.m_speed.y * (-1)⟩ }
    else b2
  (b3, bs2.2)

/-! ## Paddle -/

/-- `Paddle::bounds_check`: keep the paddle on the screen. -/
def Paddle.bounds_check (p : Paddle) : Paddle :=
  if p.m_position.y - (p.m_height.val : ℚ) / 2 ≤ 0 then
    { p with m_position := ⟨p.m_position.x, (p.m_height.val : ℚ) / 2⟩ }
  else if p.m_position.y + (p.m_height.val : ℚ) / 2 ≥ (ScreenHeight : ℚ) then
    { p with m_position := ⟨p.m_position.x, (ScreenHeight : ℚ) - (p.m_height.val : ℚ) / 2⟩ }
  else p

/-- `Paddle::update`: `key_up` and `key_down` are `IsKeyDown(KEY_UP)` and
`IsKeyDown(KEY_DOWN)`, `dt` is the frame time. -/
def Paddle.update (key_up key_down : Bool) (dt : ℚ) (p : Paddle) : Paddle :=
  let p1 : Paddle :=
    if key_up then { p with m_position := ⟨p.m_position.x, p.m_position.y - p.m_speed.y * dt⟩ }
    else p
  let p2 : Paddle :=
    if key_down then
      { p1 with m_position := ⟨p1.m_position.x, p1.m_position.y + p1.m_speed.y * dt⟩ }
    else p1
  p2.bounds_check

/-- `Paddle::handle_ball_collision` (inherited unchanged by `CpuPaddle`). The raylib
test `CheckCollisionCircleRec(center, radius, rec)` is an argument; the paddle itself
is not written. -/
def Paddle.handle_ball_collision (CheckCollisionCircleRec : Vector2 → ℚ → Rectangle → Bool)
    (p : Paddle) (ball : Ball) : Ball :=
  if CheckCollisionCircleRec ball.m_position (ball.m_radius.val : ℚ)
      ⟨p.m_position.x - (p.m_width.val : ℚ) / 2,
       p.m_position.y - (p.m_height.val : ℚ) / 2,
       (p.m_width.val : ℚ),
       (p.m_height.val : ℚ)⟩ then
    { ball with m_speed := ⟨ball.m_speed.x * (-1), ball.m_speed.y⟩ }
  else ball

/-! ## CPU paddle -/

/-- Reaction delay of the CPU paddle, `0.05f`. -/
def CpuPaddle.m_reaction_delay : ℚ := 5 / 100
/-- Bound of the prediction error, `20.0f`. -/
def CpuPaddle.m_prediction_error : ℚ := 20
/-- Dead zone, `8.0f`. -/
def CpuPaddle.m_dead_zone : ℚ := 8
/-- Speed multiplier of the return to the centre, `1`. -/
def CpuPaddle.m_return_to_center_speed_multiplier : ℚ := 1

/-- `CpuPaddle::moveTowardTarget(speed)` in a frame of duration `dt`. -/
def CpuPaddle.moveTowardTarget (dt : ℚ) (speed : ℚ) (p : CpuPaddle) : CpuPaddle :=
  let difference : ℚ := p.m_target_y - p.m_position.y
  if |difference| > CpuPaddle.m_dead_zone then
    if difference > 0 then
      { p with m_position := ⟨p.m_position.x, p.m_position.y + speed * dt⟩ }
    else
      { p with m_position := ⟨p.m_position.x, p.m_position.y - speed * dt⟩ }
  else p

/-- `CpuPaddle::bounds_check` (it hides `Paddle::bounds_check`; strict comparisons). -/
def CpuPaddle.bounds_check (p : CpuPaddle) : CpuPaddle :=
  let half_height : ℚ := (p.m_height.val : ℚ) / 2
  if p.m_position.y - half_height < 0 then
    { p with m_position := ⟨p.m_position.x, half_height⟩ }
  else if p.m_position.y + half_height > (ScreenHeight : ℚ) then
    { p with m_position := ⟨p.m_position.x, (ScreenHeight : ℚ) - half_height⟩ }
  else p

/-- The state of the CPU paddle after the target-selection part of
`CpuPaddle::update` and the call of `moveTowardTarget`, before `bounds_check`. -/
def CpuPaddle.update_move (current_time dt : ℚ) (raw : Nat) (ball : Ball) (p : CpuPaddle) :
    CpuPaddle :=
  if ball.m_speed.x < 0 then
    -- ball coming toward this paddle
    let p1 : CpuPaddle :=
      if current_time - p.m_last_reaction_time > CpuPaddle.m_reaction_delay then
        let time_to_paddle : ℚ := |ball.m_position.x - p.m_position.x| / |ball.m_speed.x|
        let predicted_y : ℚ := ball.m_position.y + ball.m_speed.y * time_to_paddle
        let prediction_error : ℚ :=
          (GetRandomValue raw (float_to_int (-CpuPaddle.m_prediction_error))
            (float_to_int CpuPaddle.m_prediction_error) : Int)
        { p with m_target_y := predicted_y + prediction_error,
                 m_last_reaction_time := current_time }
      else p
    p1.moveTowardTarget dt p1.m_speed.y
  else
    -- ball going away
    let p1 : CpuPaddle := { p with m_target_y := (ScreenHeight : ℚ) / 2 }
    p1.moveTowardTarget dt (p1.m_speed.y * CpuPaddle.m_return_to_center_speed_multiplier)

/-- `CpuPaddle::update(ball)` at clock value `current_time`, in a frame of duration
`dt`; `raw` is the draw used for the prediction error. -/
def CpuPaddle.update (current_time dt : ℚ) (raw : Nat) (ball : Ball) (p : CpuPaddle) :
    CpuPaddle :=
  (p.update_move current_time dt raw ball).bounds_check

/-! ## The collision test -/

/-- The raylib test `CheckCollisionCircleRec(center, radius, rec)`. It is a function of
the raylib library, not of this program; this is the algorithm of raylib's shapes
module: compare the distance of the centre to the rectangle's centre, axis by axis, and
at a corner compare the squared distance to the corner with the squared radius. -/
def CheckCollisionCircleRec (center : Vector2) (radius : ℚ) (rec : Rectangle) : Bool :=
  let recCenterX : ℚ := rec.x + rec.width / 2
  let recCenterY : ℚ := rec.y + rec.height / 2
  let dx : ℚ := |center.x - recCenterX|
  let dy : ℚ := |center.y - recCenterY|
  if dx > rec.width / 2 + radius then false
  else if dy > rec.height / 2 + radius then false
  else if dx ≤ rec.width / 2 then true
  else if dy ≤ rec.height / 2 then true
  else
    decide ((dx - rec.width / 2) * (dx - rec.width / 2) +
      (dy - rec.height / 2) * (dy - rec.height / 2) ≤ radius * radius)

/-- The closed disc of centre `center` and radius `radius` and the closed rectangle
`rec` have a common point: what a circle-rectangle collision test is meant to answer. -/
def CircleOverlapsRec (center : Vector2) (radius : ℚ) (rec : Rectangle) : Prop :=
  ∃ u v : ℚ, rec.x ≤ u ∧ u ≤ rec.x + rec.width ∧ rec.y ≤ v ∧ v ≤ rec.y + rec.height ∧
    (u - center.x) ^ 2 + (v - center.y) ^ 2 ≤ radius ^ 2

/-- The ball's circle (centre the ball position, radius `r`) overlaps the paddle
rectangle `[px - w/2, px + w/2] x [py - h/2, py + h/2]`. -/
def Paddle.ball_overlaps (p : Paddle) (ball : Ball) : Prop :=
  ∃ u v : ℚ,
    p.m_position.x - (p.m_width.val : ℚ) / 2 ≤ u ∧ u ≤ p.m_position.x + (p.m_width.val : ℚ) / 2 ∧
    p.m_position.y - (p.m_height.val : ℚ) / 2 ≤ v ∧
    v ≤ p.m_position.y + (p.m_height.val : ℚ) / 2 ∧
    (u - ball.m_position.x) ^ 2 + (v - ball.m_position.y) ^ 2 ≤ ((ball.m_radius.val : ℚ)) ^ 2

/-! ## The division of the prediction, made fallible -/

/-- The ball constructed in `main`, before the first `reset`. -/
def main_ball : Ball :=
  { m_position := ⟨(ScreenWidth : ℚ) / 2, (ScreenHeight : ℚ) / 2⟩,
    m_speed := ⟨BallSpeed, BallSpeed⟩,
    m_radius := BallRadius }

/-- The player paddle constructed in `main`
(`ScreenWidth - PaddleWidth / 2 - 10` is integer arithmetic). -/
def main_player_paddle : Paddle :=
  { m_position := ⟨((ScreenWidth - (PaddleWidth.val : Int) / 2 - 10 : Int) : ℚ),
                   (ScreenHeight : ℚ) / 2⟩,
    m_speed := ⟨PaddleSpeed, PaddleSpeed⟩,
    m_width := PaddleWidth,
    m_height := PaddleHeight }

/-- The CPU paddle constructed in `main` when the clock `GetTime()` reads `t0`. -/
def main_cpu_paddle (t0 : ℚ) : CpuPaddle :=
  { m_position := ⟨(((PaddleWidth.val : Int) / 2 + 10 : Int) : ℚ), (ScreenHeight : ℚ) / 2⟩,
    m_speed := ⟨PaddleSpeed, PaddleSpeed⟩,
    m_width := PaddleWidth,
    m_height := PaddleHeight,
    m_target_y := (ScreenHeight : ℚ) / 2,
    m_last_reaction_time := t0 }

/-! ## Predicates used in the statements -/

/-- Each component of `w` is the same component of `v`, kept or negated; in particular
the absolute values of the components agree. -/
def SignFlipOf (v w : Vector2) : Prop :=
  (w.x = v.x ∨ w.x = -v.x) ∧ (w.y = v.y ∨ w.y = -v.y) ∧ |w.x| = |v.x| ∧ |w.y| = |v.y|

/-! ## Auxiliary facts -/

theorem screenWidth_cast : ((ScreenWidth : Int) : ℚ) = 1280 := by
  simp [ScreenWidth]

theorem screenHeight_cast : ((ScreenHeight : Int) : ℚ) = 800 := by
  simp [ScreenHeight]

/-- A `uint8_t` converted to `float` lies in `[0, 255]`. -/
theorem uint8_cast_bounds (r : Fin 256) : (0 : ℚ) ≤ (r.val : ℚ) ∧ (r.val : ℚ) ≤ 255 := by
  refine ⟨Nat.cast_nonneg _, ?_⟩
  have h : r.val ≤ 255 := Nat.le_of_lt_succ r.isLt
  exact_mod_cast h

theorem ballRadius_cast : ((BallRadius.val : ℕ) : ℚ) = 10 := by
  have h : BallRadius.val = 10 := rfl
  rw [h]
  norm_num

theorem paddleHeight_cast : ((PaddleHeight.val : ℕ) : ℚ) = 120 := by
  have h : PaddleHeight.val = 120 := rfl
  rw [h]
  norm_num

theorem paddleWidth_cast : ((PaddleWidth.val : ℕ) : ℚ) = 25 := by
  have h : PaddleWidth.val = 25 := rfl
  rw [h]
  norm_num

theorem main_player_paddle_x : main_player_paddle.m_position.x = 1258 := by
  have h : (ScreenWidth - (PaddleWidth.val : Int) / 2 - 10 : Int) = 1258 := by decide
  show (((ScreenWidth - (PaddleWidth.val : Int) / 2 - 10 : Int)) : ℚ) = 1258
  rw [h]
  norm_num

/-- `GetRandomValue(0, 1)` is `0` or `1`. -/
theorem getRandomValue_zero_one (raw : Nat) :
    GetRandomValue raw 0 1 = 0 ∨ GetRandomValue raw 0 1 = 1 := by
  unfold GetRandomValue
  have h : raw % 2 = 0 ∨ raw % 2 = 1 := Nat.mod_two_eq_zero_or_one raw
  rcases h with h | h
  · left; simp [h]
  · right; simp [h]

/-- The factor picked in `Ball::reset` is `-1` or `1`. -/
theorem speed_choice_cases (raw : Nat) :
    speed_choices.getD (GetRandomValue raw 0 1).toNat 0 = -1 ∨
    speed_choices.getD (GetRandomValue raw 0 1).toNat 0 = 1 := by
  rcases getRandomValue_zero_one raw with h | h
  · left; rw [h]; rfl
  · right; rw [h]; rfl

theorem Ball.reset_position (raw1 raw2 : Nat) (b : Ball) :
    (b.reset raw1 raw2).m_position = ⟨640, 400⟩ := by
  simp [Ball.reset, screenWidth_cast, screenHeight_cast]
  norm_num

theorem Ball.reset_radius (raw1 raw2 : Nat) (b : Ball) :
    (b.reset raw1 raw2).m_radius = b.m_radius := rfl

/-! ## Ball: scoring -/

/-- The score counters after `Ball::update`. -/
theorem Ball.update_snd (dt : ℚ) (raw1 raw2 : Nat) (b : Ball) (s : Scores) :
    (b.update dt raw1 raw2 s).2 =
      if b.m_position.x + b.m_speed.x * dt - (b.m_radius.val : ℚ) ≤ 0 then
        { s with player_score := s.player_score + 1 }
      else if b.m_position.x + b.m_speed.x * dt + (b.m_radius.val : ℚ) ≥ 1280 then
        { s with cpu_score := s.cpu_score + 1 }
      else s := by
  simp only [Ball.update, screenWidth_cast]
  split_ifs <;> rfl

/-- The vertical flip at the end of `Ball::update` does not move the ball. -/
theorem Ball.flip_position (c : Ball) :
    (if c.m_position.y - (c.m_radius.val : ℚ) ≤ 0 ∨
        c.m_position.y + (c.m_radius.val : ℚ) ≥ (ScreenHeight : ℚ) then
      ({ c with m_speed := ⟨c.m_speed.x, c.m_speed.y * (-1)⟩ } : Ball)
    else c).m_position = c.m_position := by
  split_ifs <;> rfl

/-- The ball position after `Ball::update`. -/
theorem Ball.update_position (dt : ℚ) (raw1 raw2 : Nat) (b : Ball) (s : Scores) :
    (b.update dt raw1 raw2 s).1.m_position =
      if b.m_position.x + b.m_speed.x * dt - (b.m_radius.val : ℚ) ≤ 0 ∨
         b.m_position.x + b.m_speed.x * dt + (b.m_radius.val : ℚ) ≥ 1280 then
        ⟨640, 400⟩
      else ⟨b.m_position.x + b.m_speed.x * dt, b.m_position.y + b.m_speed.y * dt⟩ := by
  simp only [Ball.update, screenWidth_cast]
  rw [Ball.flip_position]
  by_cases h1 : b.m_position.x + b.m_speed.x * dt - (b.m_radius.val : ℚ) ≤ 0
  · rw [if_pos h1, if_pos (Or.inl h1)]
    exact Ball.reset_position _ _ _
  · rw [if_neg h1]
    by_cases h2 : b.m_position.x + b.m_speed.x * dt + (b.m_radius.val : ℚ) ≥ 1280
    · rw [if_pos h2, if_pos (Or.inr h2)]
      exact Ball.reset_position _ _ _
    · rw [if_neg h2, if_neg (not_or.mpr ⟨h1, h2⟩)]

/-- C1: `Ball::update` increments `player_score` by one (and leaves `cpu_score`) when
the moved ball reaches the left edge, otherwise increments `cpu_score` by one (and
leaves `player_score`) when it reaches the right edge, otherwise leaves both counters;
in the two scoring cases the ball ends at the screen centre `(640, 400)`. -/
theorem Ball.update_scores (dt : ℚ) (raw1 raw2 : Nat) (b : Ball) (s : Scores) :
    let x1 : ℚ := b.m_position.x + b.m_speed.x * dt
    let r : ℚ := (b.m_radius.val : ℚ)
    let out := b.update dt raw1 raw2 s
    (if x1 - r ≤ 0 then
        out.2.player_score = s.player_score + 1 ∧ out.2.cpu_score = s.cpu_score ∧
        out.1.m_position = ⟨640, 400⟩
      else if x1 + r ≥ 1280 then
        out.2.cpu_score = s.cpu_score + 1 ∧ out.2.player_score = s.player_score ∧
        out.1.m_position = ⟨640, 400⟩
      else
        out.2.player_score = s.player_score ∧ out.2.cpu_score = s.cpu_score) := by
  intro x1 r out
  have e2 : out.2 = _ := Ball.update_snd dt raw1 raw2 b s
  have e1 : out.1.m_position = _ := Ball.update_position dt raw1 raw2 b s
  rw [e2, e1]
  by_cases h1 : x1 - r ≤ 0
  · have h1' : b.m_position.x + b.m_speed.x * dt - (b.m_radius.val : ℚ) ≤ 0 := h1
    rw [if_pos h1, if_pos h1', if_pos (Or.inl h1')]
    exact ⟨rfl, rfl, rfl⟩
  · have h1' : ¬ b.m_position.x + b.m_speed.x * dt - (b.m_radius.val : ℚ) ≤ 0 := h1
    rw [if_neg h1, if_neg h1']
    by_cases h2 : x1 + r ≥ 1280
    · have h2' : b.m_position.x + b.m_speed.x * dt + (b.m_radius.val : ℚ) ≥ 1280 := h2
      rw [if_pos h2, if_pos h2', if_pos (Or.inr h2')]
      exact ⟨rfl, rfl, rfl⟩
    · have h2' : ¬ b.m_position.x + b.m_speed.x * dt + (b.m_radius.val : ℚ) ≥ 1280 := h2
      rw [if_neg h2, if_neg h2']
      exact ⟨rfl, rfl⟩

/-! ## Paddles stay on the screen -/

/-- `Paddle::bounds_check` leaves the paddle between `h/2` and `800 - h/2`. -/
theorem Paddle.bounds_check_range (p : Paddle) :
    (p.m_height.val : ℚ) / 2 ≤ p.bounds_check.m_position.y ∧
    p.bounds_check.m_position.y ≤ 800 - (p.m_height.val : ℚ) / 2 := by
  have hb := uint8_cast_bounds p.m_height
  unfold Paddle.bounds_check
  rw [screenHeight_cast]
  split_ifs with h1 h2
  · constructor <;> simp only <;> linarith [hb.1, hb.2]
  · constructor <;> simp only <;> linarith [hb.1, hb.2]
  · constructor <;> linarith [not_le.mp h1, not_le.mp h2]

/-- `CpuPaddle::bounds_check` leaves the paddle between `h/2` and `800 - h/2`. -/
theorem CpuPaddle.bounds_check_cpu_range (p : CpuPaddle) :
    (p.m_height.val : ℚ) / 2 ≤ p.bounds_check.m_position.y ∧
    p.bounds_check.m_position.y ≤ 800 - (p.m_height.val : ℚ) / 2 := by
  have hb := uint8_cast_bounds p.m_height
  unfold CpuPaddle.bounds_check
  rw [screenHeight_cast]
  simp only
  split_ifs with h1 h2
  · constructor <;> simp only <;> linarith [hb.1, hb.2]
  · constructor <;> simp only <;> linarith [hb.1, hb.2]
  · constructor <;> linarith [not_lt.mp h1, not_lt.mp h2]

/-- The part of `Paddle::update` before `bounds_check` keeps the height. -/
theorem Paddle.update_height (key_up key_down : Bool) (dt : ℚ) (p : Paddle) :
    (p.update key_up key_down dt).m_height = p.m_height := by
  unfold Paddle.update Paddle.bounds_check
  cases key_up <;> cases key_down <;> simp only <;> split_ifs <;> rfl

theorem CpuPaddle.moveTowardTarget_height (dt speed : ℚ) (p : CpuPaddle) :
    (p.moveTowardTarget dt speed).m_height = p.m_height := by
  unfold CpuPaddle.moveTowardTarget
  simp only
  split_ifs <;> rfl

theorem CpuPaddle.update_move_height (current_time dt : ℚ) (raw : Nat) (ball : Ball)
    (p : CpuPaddle) : (p.update_move current_time dt raw ball).m_height = p.m_height := by
  unfold CpuPaddle.update_move
  simp only
  split_ifs <;> rw [CpuPaddle.moveTowardTarget_height]

/-- C2: after `Paddle::update` and after `CpuPaddle::update` the vertical position lies
in `[h/2, 800 - h/2]`, for every height `h`, prior position, key state, ball state,
clock value and frame time. -/
theorem paddle_update_within_screen (key_up key_down : Bool) (dt current_time : ℚ)
    (raw : Nat) (ball : Ball) (p : Paddle) (c : CpuPaddle) :
    ((p.m_height.val : ℚ) / 2 ≤ (p.update key_up key_down dt).m_position.y ∧
      (p.update key_up key_down dt).m_position.y ≤ 800 - (p.m_height.val : ℚ) / 2) ∧
    ((c.m_height.val : ℚ) / 2 ≤ (c.update current_time dt raw ball).m_position.y ∧
      (c.update current_time dt raw ball).m_position.y ≤ 800 - (c.m_height.val : ℚ) / 2) := by
  constructor
  · have key : ∀ q : Paddle, q.m_height = p.m_height →
        (p.m_height.val : ℚ) / 2 ≤ q.bounds_check.m_position.y ∧
        q.bounds_check.m_position.y ≤ 800 - (p.m_height.val : ℚ) / 2 := by
      intro q hq
      rw [← hq]
      exact q.bounds_check_range
    unfold Paddle.update
    cases key_up <;> cases key_down <;> exact key _ rfl
  · have h := (c.update_move current_time dt raw ball).bounds_check_cpu_range
    rw [CpuPaddle.update_move_height] at h
    exact h

/-! ## The ball's velocity only changes sign -/

theorem SignFlipOf.of_cases {v w : Vector2} (hx : w.x = v.x ∨ w.x = -v.x)
    (hy : w.y = v.y ∨ w.y = -v.y) : SignFlipOf v w := by
  refine ⟨hx, hy, ?_, ?_⟩
  · rcases hx with h | h <;> rw [h]
    exact abs_neg _
  · rcases hy with h | h <;> rw [h]
    exact abs_neg _

theorem SignFlipOf.refl (v : Vector2) : SignFlipOf v v :=
  SignFlipOf.of_cases (Or.inl rfl) (Or.inl rfl)

theorem SignFlipOf.trans {u v w : Vector2} (h1 : SignFlipOf u v) (h2 : SignFlipOf v w) :
    SignFlipOf u w := by
  obtain ⟨ax, ay, -, -⟩ := h1
  obtain ⟨bx, by_, -, -⟩ := h2
  apply SignFlipOf.of_cases
  · rcases ax with a | a <;> rcases bx with b | b <;> rw [b, a] <;> simp
  · rcases ay with a | a <;> rcases by_ with b | b <;> rw [b, a] <;> simp

theorem Ball.reset_speed (raw1 raw2 : Nat) (b : Ball) :
    SignFlipOf b.m_speed (b.reset raw1 raw2).m_speed := by
  apply SignFlipOf.of_cases
  · show b.m_speed.x * ((speed_choices.getD (GetRandomValue raw1 0 1).toNat 0 : Int) : ℚ) = _ ∨
      b.m_speed.x * ((speed_choices.getD (GetRandomValue raw1 0 1).toNat 0 : Int) : ℚ) = _
    rcases speed_choice_cases raw1 with h | h <;> rw [h]
    · right; push_cast; ring
    · left; push_cast; ring
  · show b.m_speed.y * ((speed_choices.getD (GetRandomValue raw2 0 1).toNat 0 : Int) : ℚ) = _ ∨
      b.m_speed.y * ((speed_choices.getD (GetRandomValue raw2 0 1).toNat 0 : Int) : ℚ) = _
    rcases speed_choice_cases raw2 with h | h <;> rw [h]
    · right; push_cast; ring
    · left; push_cast; ring

/-- The vertical flip at the end of `Ball::update` keeps or negates the velocity. -/
theorem Ball.flip_speed (c : Ball) :
    SignFlipOf c.m_speed (if c.m_position.y - (c.m_radius.val : ℚ) ≤ 0 ∨
        c.m_position.y + (c.m_radius.val : ℚ) ≥ (ScreenHeight : ℚ) then
      ({ c with m_speed := ⟨c.m_speed.x, c.m_speed.y * (-1)⟩ } : Ball)
    else c).m_speed := by
  split_ifs
  · exact SignFlipOf.of_cases (Or.inl rfl) (Or.inr (by simp))
  · exact SignFlipOf.refl _

theorem Ball.update_speed (dt : ℚ) (raw1 raw2 : Nat) (b : Ball) (s : Scores) :
    SignFlipOf b.m_speed (b.update dt raw1 raw2 s).1.m_speed := by
  simp only [Ball.update]
  refine SignFlipOf.trans ?_ (Ball.flip_speed _)
  split_ifs
  · exact Ball.reset_speed raw1 raw2 _
  · exact Ball.reset_speed raw1 raw2 _
  · exact SignFlipOf.refl _

theorem Paddle.handle_ball_collision_speed (chk : Vector2 → ℚ → Rectangle → Bool)
    (p : Paddle) (b : Ball) :
    SignFlipOf b.m_speed (p.handle_ball_collision chk b).m_speed := by
  unfold Paddle.handle_ball_collision
  split_ifs
  · exact SignFlipOf.of_cases (Or.inr (by simp)) (Or.inl rfl)
  · exact SignFlipOf.refl _

/-- C3: every operation of the frame loop that writes the ball's velocity, namely
`Ball::update`, `Ball::reset` with any random picks, and
`Paddle::handle_ball_collision` whatever the collision test answers, keeps or negates
each velocity component, so `|vx|` and `|vy|` are unchanged. -/
theorem ball_speed_components_only_flip (dt : ℚ) (raw1 raw2 : Nat)
    (chk : Vector2 → ℚ → Rectangle → Bool) (p : Paddle) (b : Ball) (s : Scores) :
    SignFlipOf b.m_speed (b.update dt raw1 raw2 s).1.m_speed ∧
    SignFlipOf b.m_speed (b.reset raw1 raw2).m_speed ∧
    SignFlipOf b.m_speed (p.handle_ball_collision chk b).m_speed :=
  ⟨Ball.update_speed dt raw1 raw2 b s, Ball.reset_speed raw1 raw2 b,
    Paddle.handle_ball_collision_speed chk p b⟩

/-! ## Ball: a frame without a score -/

/-- `Ball::update` when the moved ball reaches neither the left nor the right edge:
the ball is moved and the vertical velocity is flipped at the top or bottom edge. -/
theorem Ball.update_no_score (dt : ℚ) (raw1 raw2 : Nat) (b : Ball) (s : Scores)
    (hl : ¬ b.m_position.x + b.m_speed.x * dt - (b.m_radius.val : ℚ) ≤ 0)
    (hr : ¬ b.m_position.x + b.m_speed.x * dt + (b.m_radius.val : ℚ) ≥ 1280) :
    (b.update dt raw1 raw2 s).1 =
      if b.m_position.y + b.m_speed.y * dt - (b.m_radius.val : ℚ) ≤ 0 ∨
         b.m_position.y + b.m_speed.y * dt + (b.m_radius.val : ℚ) ≥ 800 then
        { m_position := ⟨b.m_position.x + b.m_speed.x * dt, b.m_position.y + b.m_speed.y * dt⟩,
          m_speed := ⟨b.m_speed.x, b.m_speed.y * (-1)⟩,
          m_radius := b.m_radius }
      else
        { m_position := ⟨b.m_position.x + b.m_speed.x * dt, b.m_position.y + b.m_speed.y * dt⟩,
          m_speed := b.m_speed,
          m_radius := b.m_radius } := by
  simp only [Ball.update, screenWidth_cast, screenHeight_cast]
  rw [if_neg hl, if_neg hr]

/-- C4: in a frame in which the moved ball reaches neither the left nor the right edge,
`Ball::update` negates `vy` when the moved ball reaches the top or bottom bound
(`y1 - r <= 0` or `y1 + r >= 800`), leaves `vy` unchanged otherwise, and leaves `vx`
unchanged. -/
theorem Ball.update_vertical_reflection (dt : ℚ) (raw1 raw2 : Nat) (b : Ball) (s : Scores)
    (hl : ¬ b.m_position.x + b.m_speed.x * dt - (b.m_radius.val : ℚ) ≤ 0)
    (hr : ¬ b.m_position.x + b.m_speed.x * dt + (b.m_radius.val : ℚ) ≥ 1280) :
    (b.update dt raw1 raw2 s).1.m_speed.y =
      (if b.m_position.y + b.m_speed.y * dt - (b.m_radius.val : ℚ) ≤ 0 ∨
          b.m_position.y + b.m_speed.y * dt + (b.m_radius.val : ℚ) ≥ 800
        then -b.m_speed.y else b.m_speed.y) ∧
    (b.update dt raw1 raw2 s).1.m_speed.x = b.m_speed.x := by
  rw [Ball.update_no_score dt raw1 raw2 b s hl hr]
  split_ifs
  · exact ⟨by simp, rfl⟩
  · exact ⟨rfl, rfl⟩

/-- A ball 15 pixels below the top edge moving up at 420 px/s, in a frame of 1/60 s:
no score, the moved ball touches the top bound and `vy` goes from `-420` to `420`. -/
theorem Ball.update_vertical_reflection_witness :
    (Ball.update (1 / 60) 0 0 ⟨⟨640, 15⟩, ⟨420, -420⟩, BallRadius⟩ ⟨0, 0⟩).1.m_speed.y = 420 ∧
    (Ball.update (1 / 60) 0 0 ⟨⟨640, 15⟩, ⟨420, -420⟩, BallRadius⟩ ⟨0, 0⟩).1.m_speed.x = 420 := by
  have h := Ball.update_vertical_reflection (1 / 60) 0 0 ⟨⟨640, 15⟩, ⟨420, -420⟩, BallRadius⟩ ⟨0, 0⟩
    (by norm_num [ballRadius_cast]) (by norm_num [ballRadius_cast])
  rw [if_pos (Or.inl (by norm_num [ballRadius_cast]))] at h
  simpa using h

/-- C5: in a frame in which the moved ball reaches neither the left nor the right edge,
the position after `Ball::update` is `(x + vx*dt, y + vy*dt)` with `(vx, vy)` the
velocity before the update. -/
theorem Ball.update_integrates_velocity (dt : ℚ) (raw1 raw2 : Nat) (b : Ball) (s : Scores)
    (hl : ¬ b.m_position.x + b.m_speed.x * dt - (b.m_radius.val : ℚ) ≤ 0)
    (hr : ¬ b.m_position.x + b.m_speed.x * dt + (b.m_radius.val : ℚ) ≥ 1280) :
    (b.update dt raw1 raw2 s).1.m_position =
      ⟨b.m_position.x + b.m_speed.x * dt, b.m_position.y + b.m_speed.y * dt⟩ := by
  rw [Ball.update_no_score dt raw1 raw2 b s hl hr]
  split_ifs <;> rfl

/-- The same ball and frame: it moves from `(640, 15)` to `(647, 8)` although `vy` is
flipped in that frame. -/
theorem Ball.update_integrates_velocity_witness :
    (Ball.update (1 / 60) 0 0 ⟨⟨640, 15⟩, ⟨420, -420⟩, BallRadius⟩ ⟨0, 0⟩).1.m_position = ⟨647, 8⟩ := by
  have h := Ball.update_integrates_velocity (1 / 60) 0 0 ⟨⟨640, 15⟩, ⟨420, -420⟩, BallRadius⟩ ⟨0, 0⟩
    (by norm_num [ballRadius_cast]) (by norm_num [ballRadius_cast])
  rw [h]
  norm_num

/-! ## CPU paddle: target selection -/

theorem float_to_int_prediction_error :
    float_to_int CpuPaddle.m_prediction_error = 20 ∧
    float_to_int (-CpuPaddle.m_prediction_error) = -20 := by
  unfold float_to_int CpuPaddle.m_prediction_error
  constructor
  · rw [if_pos (by norm_num)]
    have h : (20 : ℚ) = ((20 : ℤ) : ℚ) := by norm_num
    rw [h, Int.floor_intCast]
  · rw [if_neg (by norm_num)]
    have h : (-20 : ℚ) = ((-20 : ℤ) : ℚ) := by norm_num
    rw [h, Int.ceil_intCast]

theorem CpuPaddle.moveTowardTarget_target (dt speed : ℚ) (p : CpuPaddle) :
    (p.moveTowardTarget dt speed).m_target_y = p.m_target_y ∧
    (p.moveTowardTarget dt speed).m_last_reaction_time = p.m_last_reaction_time := by
  unfold CpuPaddle.moveTowardTarget
  simp only
  split_ifs <;> exact ⟨rfl, rfl⟩

theorem CpuPaddle.bounds_check_target (p : CpuPaddle) :
    p.bounds_check.m_target_y = p.m_target_y ∧
    p.bounds_check.m_last_reaction_time = p.m_last_reaction_time := by
  unfold CpuPaddle.bounds_check
  simp only
  split_ifs <;> exact ⟨rfl, rfl⟩

/-- The target and the reaction time after `CpuPaddle::update`, branch by branch. -/
theorem CpuPaddle.update_target (current_time dt : ℚ) (raw : Nat) (ball : Ball)
    (p : CpuPaddle) :
    (p.update current_time dt raw ball).m_target_y =
      (if ball.m_speed.x < 0 then
        if current_time - p.m_last_reaction_time > CpuPaddle.m_reaction_delay then
          ball.m_position.y +
            ball.m_speed.y * (|ball.m_position.x - p.m_position.x| / |ball.m_speed.x|) +
            ((GetRandomValue raw (-20) 20 : Int) : ℚ)
        else p.m_target_y
      else 400) ∧
    (p.update current_time dt raw ball).m_last_reaction_time =
      (if ball.m_speed.x < 0 ∧
          current_time - p.m_last_reaction_time > CpuPaddle.m_reaction_delay then
        current_time
      else p.m_last_reaction_time) := by
  unfold CpuPaddle.update
  rw [(CpuPaddle.bounds_check_target _).1, (CpuPaddle.bounds_check_target _).2]
  unfold CpuPaddle.update_move
  simp only [float_to_int_prediction_error.1, float_to_int_prediction_error.2,
    screenHeight_cast]
  by_cases h1 : ball.m_speed.x < 0
  · rw [if_pos h1, if_pos h1, (CpuPaddle.moveTowardTarget_target _ _ _).1,
      (CpuPaddle.moveTowardTarget_target _ _ _).2]
    by_cases h2 : current_time - p.m_last_reaction_time > CpuPaddle.m_reaction_delay
    · rw [if_pos h2, if_pos h2, if_pos ⟨h1, h2⟩]
      exact ⟨rfl, rfl⟩
    · rw [if_neg h2, if_neg h2, if_neg (fun h => h2 h.2)]
      exact ⟨rfl, rfl⟩
  · rw [if_neg h1, if_neg h1, (CpuPaddle.moveTowardTarget_target _ _ _).1,
      (CpuPaddle.moveTowardTarget_target _ _ _).2, if_neg (fun h => h1 h.1)]
    refine ⟨?_, rfl⟩
    show (800 : ℚ) / 2 = 400
    norm_num

/-- C6, as stated, fails: with the ball moving away (`vx = 420`), a target of `100` and
no time elapsed since the last reaction, `CpuPaddle::update` still moves the target to
`400`. -/
theorem CpuPaddle.update_target_counterexample :
    ¬ ((0 : ℚ) - 0 > CpuPaddle.m_reaction_delay) ∧
    (CpuPaddle.update 0 (1 / 60) 0 main_ball
      { main_cpu_paddle 0 with m_target_y := 100 }).m_target_y = 400 ∧
    ({ main_cpu_paddle 0 with m_target_y := 100 } : CpuPaddle).m_target_y = 100 ∧
    ({ main_cpu_paddle 0 with m_target_y := 100 } : CpuPaddle).m_last_reaction_time = 0 := by
  refine ⟨by norm_num [CpuPaddle.m_reaction_delay], ?_, rfl, rfl⟩
  rw [(CpuPaddle.update_target _ _ _ _ _).1]
  norm_num [main_ball, BallSpeed]

/-- C6, amended: in a call of `CpuPaddle::update` in which the reaction delay has not
elapsed, the target is unchanged when the ball moves toward the paddle (`vx < 0`) and
is the screen centre `400` when it does not (`vx >= 0`). -/
theorem CpuPaddle.update_target_before_delay (current_time dt : ℚ) (raw : Nat)
    (ball : Ball) (p : CpuPaddle)
    (h : ¬ current_time - p.m_last_reaction_time > CpuPaddle.m_reaction_delay) :
    (p.update current_time dt raw ball).m_target_y =
      if ball.m_speed.x < 0 then p.m_target_y else 400 := by
  rw [(CpuPaddle.update_target _ _ _ _ _).1, if_neg h]

/-- An approaching ball (`vx = -420`), target `100`, no time elapsed: the target stays
`100`. -/
theorem CpuPaddle.update_target_before_delay_witness :
    (CpuPaddle.update 0 (1 / 60) 0 ⟨⟨640, 400⟩, ⟨-420, 420⟩, BallRadius⟩
      { main_cpu_paddle 0 with m_target_y := 100 }).m_target_y = 100 := by
  have h := CpuPaddle.update_target_before_delay 0 (1 / 60) 0
    ⟨⟨640, 400⟩, ⟨-420, 420⟩, BallRadius⟩ { main_cpu_paddle 0 with m_target_y := 100 }
    (by norm_num [CpuPaddle.m_reaction_delay, main_cpu_paddle])
  rw [h, if_pos (by norm_num)]

/-- When the ball moves away (`vx >= 0`) the state before `bounds_check` is the one
obtained by aiming at the screen centre and moving with the full speed `m_speed.y`. -/
theorem CpuPaddle.update_move_ball_away (current_time dt : ℚ) (raw : Nat) (ball : Ball)
    (p : CpuPaddle) (h : ¬ ball.m_speed.x < 0) :
    p.update_move current_time dt raw ball =
      CpuPaddle.moveTowardTarget dt p.m_speed.y { p with m_target_y := 400 } := by
  unfold CpuPaddle.update_move
  rw [if_neg h]
  simp only [CpuPaddle.m_return_to_center_speed_multiplier, mul_one, screenHeight_cast]
  norm_num

/-- C9, evaluation at the failing input: the CPU paddle at `y = 200` with speed `360`,
the ball moving away (`vx = 420`), a frame of `1/60` s. The target becomes `400` and
the paddle moves to `206`: the distance moved equals the full-speed step
`m_speed.y * dt = 6`, it is not smaller. -/
theorem CpuPaddle.update_return_to_center_full_speed :
    (0 : ℚ) ≤ main_ball.m_speed.x ∧
    (CpuPaddle.update 1 (1 / 60) 0 main_ball
      { main_cpu_paddle 0 with m_position := ⟨22, 200⟩ }).m_target_y = 400 ∧
    (CpuPaddle.update 1 (1 / 60) 0 main_ball
      { main_cpu_paddle 0 with m_position := ⟨22, 200⟩ }).m_position.y = 206 ∧
    |(206 : ℚ) - 200| = (main_cpu_paddle 0).m_speed.y * (1 / 60) := by
  have hv : ¬ main_ball.m_speed.x < 0 := by norm_num [main_ball, BallSpeed]
  refine ⟨not_lt.mp hv, ?_, ?_, ?_⟩
  · rw [(CpuPaddle.update_target _ _ _ _ _).1, if_neg hv]
  · unfold CpuPaddle.update
    rw [CpuPaddle.update_move_ball_away _ _ _ _ _ hv]
    norm_num [CpuPaddle.moveTowardTarget, CpuPaddle.bounds_check, CpuPaddle.m_dead_zone,
      main_cpu_paddle, PaddleSpeed, paddleHeight_cast, screenHeight_cast]
  · norm_num [main_cpu_paddle, PaddleSpeed]

/-! ## Ball: a ball already at the edge -/

/-- C10, evaluation at the failing input: a ball at `(640, 5)` with radius `10`, already
past the top bound and moving down into the court (`vy = 420`), in a frame of
`1/420` s. No score occurs, the ball is still at the top bound after the update
(`6 - 10 <= 0`), and `Ball::update` turns `vy` to `-420`: out of the court. -/
theorem Ball.update_flips_away_from_court :
    (Ball.update (1 / 420) 0 0 ⟨⟨640, 5⟩, ⟨420, 420⟩, BallRadius⟩ ⟨0, 0⟩).2 = ⟨0, 0⟩ ∧
    (Ball.update (1 / 420) 0 0 ⟨⟨640, 5⟩, ⟨420, 420⟩, BallRadius⟩ ⟨0, 0⟩).1.m_position
      = ⟨641, 6⟩ ∧
    (6 : ℚ) - (BallRadius.val : ℚ) ≤ 0 ∧
    (Ball.update (1 / 420) 0 0 ⟨⟨640, 5⟩, ⟨420, 420⟩, BallRadius⟩ ⟨0, 0⟩).1.m_speed
      = ⟨420, -420⟩ := by
  have h := Ball.update_no_score (1 / 420) 0 0 ⟨⟨640, 5⟩, ⟨420, 420⟩, BallRadius⟩ ⟨0, 0⟩
    (by norm_num [ballRadius_cast]) (by norm_num [ballRadius_cast])
  rw [if_pos (Or.inl (by norm_num [ballRadius_cast]))] at h
  have hs := Ball.update_snd (1 / 420) 0 0 ⟨⟨640, 5⟩, ⟨420, 420⟩, BallRadius⟩ ⟨0, 0⟩
  rw [if_neg (by norm_num [ballRadius_cast]), if_neg (by norm_num [ballRadius_cast])] at hs
  refine ⟨hs, ?_, by norm_num [ballRadius_cast], ?_⟩
  · rw [h]
    norm_num
  · rw [h]
    norm_num

/-! ## Player paddle: one frame -/

/-- `Paddle::bounds_check` clamps the vertical position to `[h/2, 800 - h/2]` and writes
nothing else. -/
theorem Paddle.bounds_check_clamp (p : Paddle) :
    p.bounds_check =
      { p with m_position := ⟨p.m_position.x,
          max ((p.m_height.val : ℚ) / 2)
            (min p.m_position.y (800 - (p.m_height.val : ℚ) / 2))⟩ } := by
  have hb := uint8_cast_bounds p.m_height
  unfold Paddle.bounds_check
  rw [screenHeight_cast]
  split_ifs with h1 h2
  · have e : max ((p.m_height.val : ℚ) / 2)
        (min p.m_position.y (800 - (p.m_height.val : ℚ) / 2)) = (p.m_height.val : ℚ) / 2 := by
      apply max_eq_left
      exact le_trans (min_le_left _ _) (by linarith)
    rw [e]
  · have h1' := not_le.mp h1
    have e : max ((p.m_height.val : ℚ) / 2)
        (min p.m_position.y (800 - (p.m_height.val : ℚ) / 2)) =
        800 - (p.m_height.val : ℚ) / 2 := by
      rw [min_eq_right (by linarith), max_eq_right (by linarith [hb.2])]
    rw [e]
  · have h1' := not_le.mp h1
    have h2' := not_le.mp h2
    have e : max ((p.m_height.val : ℚ) / 2)
        (min p.m_position.y (800 - (p.m_height.val : ℚ) / 2)) = p.m_position.y := by
      rw [min_eq_left (by linarith), max_eq_right (by linarith)]
    rw [e]

/-- C12: `Paddle::update` sets the vertical position to `clamp(y + d)`, where `d` is
`-speed.y*dt` if only UP is held, `+speed.y*dt` if only DOWN is held and `0` if neither
or both keys are held, and `clamp` limits the value to `[h/2, 800 - h/2]`; the
horizontal position, the speed, the width and the height are unchanged. -/
theorem Paddle.update_clamped_step (key_up key_down : Bool) (dt : ℚ) (p : Paddle) :
    (p.update key_up key_down dt).m_position.y =
      max ((p.m_height.val : ℚ) / 2)
        (min (p.m_position.y +
            (match key_up, key_down with
              | true, false => -(p.m_speed.y * dt)
              | false, true => p.m_speed.y * dt
              | _, _ => 0))
          (800 - (p.m_height.val : ℚ) / 2)) ∧
    (p.update key_up key_down dt).m_position.x = p.m_position.x ∧
    (p.update key_up key_down dt).m_speed = p.m_speed ∧
    (p.update key_up key_down dt).m_width = p.m_width ∧
    (p.update key_up key_down dt).m_height = p.m_height := by
  have key : ∀ (q : Paddle) (d : ℚ), q.m_position.x = p.m_position.x →
      q.m_position.y = p.m_position.y + d → q.m_speed = p.m_speed →
      q.m_width = p.m_width → q.m_height = p.m_height →
      q.bounds_check.m_position.y =
        max ((p.m_height.val : ℚ) / 2)
          (min (p.m_position.y + d) (800 - (p.m_height.val : ℚ) / 2)) ∧
      q.bounds_check.m_position.x = p.m_position.x ∧
      q.bounds_check.m_speed = p.m_speed ∧
      q.bounds_check.m_width = p.m_width ∧
      q.bounds_check.m_height = p.m_height := by
    intro q d hx hy hs hw hh
    rw [Paddle.bounds_check_clamp]
    simp only
    rw [hx, hy, hs, hw, hh]
    exact ⟨rfl, rfl, rfl, rfl, rfl⟩
  unfold Paddle.update
  cases key_up <;> cases key_down
  · exact key _ 0 rfl (add_zero _).symm rfl rfl rfl
  · exact key _ (p.m_speed.y * dt) rfl rfl rfl rfl rfl
  · exact key _ (-(p.m_speed.y * dt)) rfl (sub_eq_add_neg _ _) rfl rfl rfl
  · refine key _ 0 rfl ?_ rfl rfl rfl
    show p.m_position.y - p.m_speed.y * dt + p.m_speed.y * dt = p.m_position.y + 0
    ring

/-! ## Ball: horizontal range -/

/-- C13: after every `Ball::update` the ball lies strictly inside the left and right
edges, `r < x' < 1280 - r`, for every prior state, radius and frame time. -/
theorem Ball.update_inside_left_right (dt : ℚ) (raw1 raw2 : Nat) (b : Ball) (s : Scores) :
    (b.m_radius.val : ℚ) < (b.update dt raw1 raw2 s).1.m_position.x ∧
    (b.update dt raw1 raw2 s).1.m_position.x < 1280 - (b.m_radius.val : ℚ) ∧
    (b.update dt raw1 raw2 s).1.m_radius = b.m_radius := by
  have hb := uint8_cast_bounds b.m_radius
  have hr : (b.update dt raw1 raw2 s).1.m_radius = b.m_radius := by
    simp only [Ball.update]
    split_ifs <;> rfl
  refine ⟨?_, ?_, hr⟩ <;> rw [Ball.update_position] <;> split_ifs with h
  · show (b.m_radius.val : ℚ) < 640
    linarith [hb.2]
  · have h' := not_or.mp h
    show (b.m_radius.val : ℚ) < b.m_position.x + b.m_speed.x * dt
    linarith [not_le.mp h'.1]
  · show (640 : ℚ) < 1280 - (b.m_radius.val : ℚ)
    linarith [hb.2]
  · have h' := not_or.mp h
    show b.m_position.x + b.m_speed.x * dt < 1280 - (b.m_radius.val : ℚ)
    linarith [not_le.mp h'.2]

/-! ## CPU paddle: the division is safe -/

/-- Every point of `[lo, lo + w]` is at least as far from `c` as the excess of
`|c - centre|` over the half width. -/
theorem interval_dist_le (lo w c u : ℚ) (h1 : lo ≤ u) (h2 : u ≤ lo + w) :
    max 0 (|c - (lo + w / 2)| - w / 2) ≤ |u - c| := by
  apply max_le (abs_nonneg _)
  rcases abs_cases (c - (lo + w / 2)) with ⟨h, _⟩ | ⟨h, _⟩ <;>
    rcases abs_cases (u - c) with ⟨h', _⟩ | ⟨h', _⟩ <;> linarith

/-- Some point of `[lo, lo + w]` is exactly that far from `c`. -/
theorem interval_dist_attained (lo w c : ℚ) (hw : 0 ≤ w) :
    ∃ u, lo ≤ u ∧ u ≤ lo + w ∧ |u - c| = max 0 (|c - (lo + w / 2)| - w / 2) := by
  by_cases h1 : c < lo
  · refine ⟨lo, le_refl _, by linarith, ?_⟩
    rw [abs_of_nonneg (by linarith), abs_of_neg (by linarith), max_eq_right (by linarith)]
    ring
  · by_cases h2 : lo + w < c
    · refine ⟨lo + w, by linarith, le_refl _, ?_⟩
      rw [abs_of_neg (by linarith), abs_of_pos (by linarith), max_eq_right (by linarith)]
      ring
    · refine ⟨c, not_lt.mp h1, not_lt.mp h2, ?_⟩
      rw [sub_self, abs_zero]
      symm
      apply max_eq_left
      have h3 : |c - (lo + w / 2)| ≤ w / 2 := by
        rw [abs_le]
        constructor <;> linarith [not_lt.mp h1, not_lt.mp h2]
      linarith

/-- The disc and the rectangle overlap exactly when the axis-wise excesses `ex`, `ey`
of the centre distance over the half sides satisfy `ex^2 + ey^2 <= r^2`. -/
theorem circleOverlapsRec_iff (c : Vector2) (r : ℚ) (rec : Rectangle)
    (hw : 0 ≤ rec.width) (hh : 0 ≤ rec.height) :
    CircleOverlapsRec c r rec ↔
      (max 0 (|c.x - (rec.x + rec.width / 2)| - rec.width / 2)) ^ 2 +
      (max 0 (|c.y - (rec.y + rec.height / 2)| - rec.height / 2)) ^ 2 ≤ r ^ 2 := by
  constructor
  · rintro ⟨u, v, hu1, hu2, hv1, hv2, hd⟩
    have ex := interval_dist_le rec.x rec.width c.x u hu1 hu2
    have ey := interval_dist_le rec.y rec.height c.y v hv1 hv2
    have ex2 := pow_le_pow_left₀ (le_max_left 0 _) ex 2
    have ey2 := pow_le_pow_left₀ (le_max_left 0 _) ey 2
    rw [sq_abs] at ex2 ey2
    linarith
  · intro h
    obtain ⟨u, hu1, hu2, hu3⟩ := interval_dist_attained rec.x rec.width c.x hw
    obtain ⟨v, hv1, hv2, hv3⟩ := interval_dist_attained rec.y rec.height c.y hh
    refine ⟨u, v, hu1, hu2, hv1, hv2, ?_⟩
    rw [← sq_abs (u - c.x), ← sq_abs (v - c.y), hu3, hv3]
    exact h

/-- The raylib algorithm answers `true` exactly when `ex^2 + ey^2 <= r^2`. -/
theorem checkCollisionCircleRec_excess (c : Vector2) (r : ℚ) (rec : Rectangle)
    (hr : 0 ≤ r) :
    CheckCollisionCircleRec c r rec = true ↔
      (max 0 (|c.x - (rec.x + rec.width / 2)| - rec.width / 2)) ^ 2 +
      (max 0 (|c.y - (rec.y + rec.height / 2)| - rec.height / 2)) ^ 2 ≤ r ^ 2 := by
  unfold CheckCollisionCircleRec
  simp only
  generalize |c.x - (rec.x + rec.width / 2)| = dx
  generalize |c.y - (rec.y + rec.height / 2)| = dy
  generalize rec.width / 2 = a
  generalize rec.height / 2 = b
  have hex := le_max_left 0 (dx - a)
  have hey := le_max_left 0 (dy - b)
  split_ifs with h1 h2 h3 h4
  · have h5 : r < max 0 (dx - a) := lt_of_lt_of_le (by linarith) (le_max_right 0 (dx - a))
    constructor
    · intro h
      exact h.elim
    · intro h
      nlinarith [sq_nonneg (max 0 (dy - b))]
  · have h5 : r < max 0 (dy - b) := lt_of_lt_of_le (by linarith) (le_max_right 0 (dy - b))
    constructor
    · intro h
      exact h.elim
    · intro h
      nlinarith [sq_nonneg (max 0 (dx - a))]
  · have e1 : max 0 (dx - a) = 0 := max_eq_left (by linarith)
    have e2 : max 0 (dy - b) ≤ r := max_le hr (by linarith [not_lt.mp h2])
    constructor
    · intro _
      rw [e1]
      nlinarith
    · intro _
      rfl
  · have e1 : max 0 (dx - a) ≤ r := max_le hr (by linarith [not_lt.mp h1])
    have e2 : max 0 (dy - b) = 0 := max_eq_left (by linarith)
    constructor
    · intro _
      rw [e2]
      nlinarith
    · intro _
      rfl
  · have e1 : max 0 (dx - a) = dx - a := max_eq_right (by linarith [not_le.mp h3])
    have e2 : max 0 (dy - b) = dy - b := max_eq_right (by linarith [not_le.mp h4])
    rw [e1, e2, decide_eq_true_iff]
    constructor <;> intro h <;> nlinarith

/-- The raylib algorithm meets the contract of a collision test: it answers `true`
exactly when the disc and the rectangle overlap (sides and radius non-negative). -/
theorem checkCollisionCircleRec_iff (c : Vector2) (r : ℚ) (rec : Rectangle)
    (hw : 0 ≤ rec.width) (hh : 0 ≤ rec.height) (hr : 0 ≤ r) :
    CheckCollisionCircleRec c r rec = true ↔ CircleOverlapsRec c r rec := by
  rw [checkCollisionCircleRec_excess c r rec hr, circleOverlapsRec_iff c r rec hw hh]

/-- The rectangle that `handle_ball_collision` passes to the test is the paddle
rectangle `[px - w/2, px + w/2] x [py - h/2, py + h/2]`. -/
theorem Paddle.ball_overlaps_iff (p : Paddle) (ball : Ball) :
    CircleOverlapsRec ball.m_position (ball.m_radius.val : ℚ)
      ⟨p.m_position.x - (p.m_width.val : ℚ) / 2,
       p.m_position.y - (p.m_height.val : ℚ) / 2,
       (p.m_width.val : ℚ),
       (p.m_height.val : ℚ)⟩ ↔ p.ball_overlaps ball := by
  unfold CircleOverlapsRec Paddle.ball_overlaps
  simp only
  have ex : p.m_position.x - (p.m_width.val : ℚ) / 2 + (p.m_width.val : ℚ) =
      p.m_position.x + (p.m_width.val : ℚ) / 2 := by ring
  have ey : p.m_position.y - (p.m_height.val : ℚ) / 2 + (p.m_height.val : ℚ) =
      p.m_position.y + (p.m_height.val : ℚ) / 2 := by ring
  rw [ex, ey]

/-- C11: `Paddle::handle_ball_collision`, with a collision test that answers `true`
exactly when the ball's circle overlaps the rectangle it is given, negates the ball's
horizontal velocity when the circle overlaps the paddle rectangle
`[px - w/2, px + w/2] x [py - h/2, py + h/2]` and keeps it otherwise; the ball's
position, vertical velocity and radius are unchanged (the paddle is only read). -/
theorem Paddle.handle_ball_collision_flips_vx (chk : Vector2 → ℚ → Rectangle → Bool)
    (p : Paddle) (ball : Ball)
    (hchk : chk ball.m_position (ball.m_radius.val : ℚ)
        ⟨p.m_position.x - (p.m_width.val : ℚ) / 2,
         p.m_position.y - (p.m_height.val : ℚ) / 2,
         (p.m_width.val : ℚ),
         (p.m_height.val : ℚ)⟩ = true ↔
      CircleOverlapsRec ball.m_position (ball.m_radius.val : ℚ)
        ⟨p.m_position.x - (p.m_width.val : ℚ) / 2,
         p.m_position.y - (p.m_height.val : ℚ) / 2,
         (p.m_width.val : ℚ),
         (p.m_height.val : ℚ)⟩) :
    (p.ball_overlaps ball →
      (p.handle_ball_collision chk ball).m_speed.x = -ball.m_speed.x) ∧
    (¬ p.ball_overlaps ball →
      (p.handle_ball_collision chk ball).m_speed.x = ball.m_speed.x) ∧
    (p.handle_ball_collision chk ball).m_position = ball.m_position ∧
    (p.handle_ball_collision chk ball).m_speed.y = ball.m_speed.y ∧
    (p.handle_ball_collision chk ball).m_radius = ball.m_radius := by
  rw [Paddle.ball_overlaps_iff] at hchk
  unfold Paddle.handle_ball_collision
  refine ⟨?_, ?_, ?_, ?_, ?_⟩
  · intro h
    rw [if_pos (hchk.mpr h)]
    simp
  · intro h
    rw [if_neg (fun hc => h (hchk.mp hc))]
  · split_ifs <;> rfl
  · split_ifs <;> rfl
  · split_ifs <;> rfl

/-- The player paddle of `main` (rectangle `[1245.5, 1270.5] x [340, 460]`) and a ball of
radius `10` at `(1240, 400)` moving right at `420`: raylib's test meets the contract,
the circle reaches the paddle's left side, and `vx` becomes `-420`. -/
theorem Paddle.handle_ball_collision_flips_vx_witness :
    (main_player_paddle.handle_ball_collision CheckCollisionCircleRec
      ⟨⟨1240, 400⟩, ⟨420, 420⟩, BallRadius⟩).m_speed.x = -420 := by
  have h := Paddle.handle_ball_collision_flips_vx CheckCollisionCircleRec main_player_paddle
    ⟨⟨1240, 400⟩, ⟨420, 420⟩, BallRadius⟩
    (checkCollisionCircleRec_iff _ _ _ (Nat.cast_nonneg _) (Nat.cast_nonneg _)
      (Nat.cast_nonneg _))
  have hov : main_player_paddle.ball_overlaps ⟨⟨1240, 400⟩, ⟨420, 420⟩, BallRadius⟩ := by
    refine ⟨1250, 400, ?_, ?_, ?_, ?_, ?_⟩ <;>
      (try simp only [main_player_paddle_x]) <;>
      norm_num [main_player_paddle, paddleWidth_cast, paddleHeight_cast, ballRadius_cast,
        screenHeight_cast]
  exact h.1 hov

end Pong
